import Mathlib

/-!
Verification of the Content Index component of the `personal-blog`
repository. The repository ships only the homepage (`src/pages/index.astro`),
which composes `getAllPosts`, `sortMDByDate` and `Array.prototype.slice`,
and a single MDX content item. The index operations themselves
(`sortByDate`, `excludeDrafts`, `slice`, `byTag`) and the loader
(`loadAll`) live outside the shipped sources, so they are modelled from
the specification of the Content Index component; the homepage pipeline
and the shipped content item are embedded from the source files.
-/

namespace Blog

/-- A Content Item: one post's metadata and body, as in the data model.
Timestamps are modelled as natural numbers ordered chronologically
(encoded `yyyymmdd`). -/
structure ContentItem where
  slug : String
  title : String
  description : String
  publishDate : Nat
  updatedDate : Option Nat
  tags : List String
  draft : Bool
  body : String
deriving Repr, DecidableEq

/-- Effective date of an item: `updatedDate` if present, else `publishDate`. -/
def effectiveDate (x : ContentItem) : Nat :=
  x.updatedDate.getD x.publishDate

/-- Modelled from the spec: the ordering used by `sortByDate`
(`sortMDByDate` in the source is not part of the shipped files).
`postOrder a b` holds when `a` may appear before `b`: descending by
effective date, ties broken by `slug` ascending. -/
def postOrder (a b : ContentItem) : Prop :=
  effectiveDate b < effectiveDate a ∨
    (effectiveDate a = effectiveDate b ∧ a.slug ≤ b.slug)

instance : DecidableRel postOrder := fun a b => by
  unfold postOrder; infer_instance

instance : IsTotal ContentItem postOrder where
  total a b := by
    unfold postOrder
    rcases Nat.lt_trichotomy (effectiveDate a) (effectiveDate b) with h | h | h
    · exact Or.inr (Or.inl h)
    · rcases le_total a.slug b.slug with hs | hs
      · exact Or.inl (Or.inr ⟨h, hs⟩)
      · exact Or.inr (Or.inr ⟨h.symm, hs⟩)
    · exact Or.inl (Or.inl h)

instance : IsTrans ContentItem postOrder where
  trans a b c hab hbc := by
    unfold postOrder at *
    rcases hab with h1 | ⟨e1, s1⟩
    · rcases hbc with h2 | ⟨e2, _⟩
      · exact Or.inl (h2.trans h1)
      · exact Or.inl (e2 ▸ h1)
    · rcases hbc with h2 | ⟨e2, s2⟩
      · exact Or.inl (e1 ▸ h2)
      · exact Or.inr ⟨e1.trans e2, s1.trans s2⟩

/-- Modelled from the spec: `sortByDate` orders items descending by
effective date, ties broken by `slug` ascending (the implementation
`sortMDByDate` is not among the shipped sources). -/
def sortByDate (items : List ContentItem) : List ContentItem :=
  List.insertionSort postOrder items

/-- Modelled from the spec: `excludeDrafts` removes items where
`draft = true` (pure filter). -/
def excludeDrafts (items : List ContentItem) : List ContentItem :=
  items.filter (fun x => !x.draft)

/-- Modelled from the spec: `slice items offset limit` returns at most
`limit` items starting at `offset`, failing with `RangeError` when
`offset < 0` or `limit < 0`. Offsets and limits are integers so that
negative bounds are representable. -/
def slice (items : List ContentItem) (offset limit : Int) :
    Except String (List ContentItem) :=
  if offset < 0 ∨ limit < 0 then
    Except.error "RangeError"
  else
    Except.ok ((items.drop offset.toNat).take limit.toNat)

/-- Modelled from the spec: `byTag items tag` returns the items whose tag
set contains `tag`, preserving relative order. -/
def byTag (items : List ContentItem) (tag : String) : List ContentItem :=
  items.filter (fun x => x.tags.contains tag)

/-- Modelled from the spec: a raw item as read from the content store,
a front-matter-like block of key/value pairs followed by a body. Every
metadata field may be absent; `slug` is derived from the source location
and so always present. -/
structure RawItem where
  slug : String
  title : Option String := none
  description : Option String := none
  publishDate : Option String := none
  updatedDate : Option String := none
  tags : List String := []
  draft : Option Bool := none
  body : String := ""
deriving Repr, DecidableEq

/-- Month-name lookup for the date format used by the shipped content
store (for example `August 2 2024`). -/
def monthNum : String → Option Nat
  | "January" => some 1
  | "February" => some 2
  | "March" => some 3
  | "April" => some 4
  | "May" => some 5
  | "June" => some 6
  | "July" => some 7
  | "August" => some 8
  | "September" => some 9
  | "October" => some 10
  | "November" => some 11
  | "December" => some 12
  | _ => none

/-- Splits a character list into space-separated words. -/
def wordsAux : List Char → List Char → List String
  | [], acc => [String.mk acc.reverse]
  | c :: cs, acc =>
    if c = ' ' then String.mk acc.reverse :: wordsAux cs []
    else wordsAux cs (c :: acc)

/-- Splits a string into its space-separated words. -/
def splitWords (s : String) : List String :=
  wordsAux s.data []

/-- Reads a run of decimal digits as a natural number. -/
def digitsAux : List Char → Nat → Option Nat
  | [], acc => some acc
  | c :: cs, acc =>
    if c.isDigit then digitsAux cs (acc * 10 + (c.toNat - 48))
    else none

/-- Parses a non-empty all-digit string as a natural number. -/
def parseNat (s : String) : Option Nat :=
  match s.data with
  | [] => none
  | cs => digitsAux cs 0

/-- Modelled from the spec: date parsing (delegated to an external
parser in the source). A date string `Month D YYYY` parses to the
chronologically ordered timestamp `yyyymmdd`; anything else is
unparseable. -/
def parseDate (s : String) : Option Nat :=
  match splitWords s with
  | [m, d, y] =>
    match monthNum m, parseNat d, parseNat y with
    | some mn, some dn, some yn => some (yn * 10000 + mn * 100 + dn)
    | _, _, _ => none
  | _ => none

/-- Modelled from the spec: validation of one raw item by the Content
Loader. A missing required field (`publishDate`) or an unparseable date
is a `LoadError`; `title` and `description` are display strings
defaulting to empty, `draft` defaults to false, an absent `updatedDate`
stays absent. -/
def loadItem (r : RawItem) : Except String ContentItem :=
  match r.publishDate with
  | none => Except.error ("LoadError: missing publishDate in " ++ r.slug)
  | some pds =>
    match parseDate pds with
    | none => Except.error ("LoadError: unparseable publishDate in " ++ r.slug)
    | some pd =>
      match r.updatedDate with
      | none =>
        Except.ok
          { slug := r.slug, title := r.title.getD "",
            description := r.description.getD "", publishDate := pd,
            updatedDate := none, tags := r.tags,
            draft := r.draft.getD false, body := r.body }
      | some uds =>
        match parseDate uds with
        | none =>
          Except.error ("LoadError: unparseable updatedDate in " ++ r.slug)
        | some ud =>
          Except.ok
            { slug := r.slug, title := r.title.getD "",
              description := r.description.getD "", publishDate := pd,
              updatedDate := some ud, tags := r.tags,
              draft := r.draft.getD false, body := r.body }

/-- Modelled from the spec: `loadAll` reads every raw item from the
store, skipping each malformed item while surfacing one diagnostic for
it (fail-soft), and returns the validated items together with the
diagnostics. -/
def loadAll (store : List RawItem) : List ContentItem × List String :=
  match store with
  | [] => ([], [])
  | r :: rest =>
    let (items, diags) := loadAll rest
    match loadItem r with
    | Except.ok item => (item :: items, diags)
    | Except.error e => (items, e :: diags)

/-- The front matter of the sole shipped content item,
`src/content/post/001-adonis-authed-query-mixin.mdx` (body elided: the
index does not interpret it). -/
def adonisRaw : RawItem :=
  { slug := "001-adonis-authed-query-mixin",
    title := some "AdonisJS Mixin for Fetching Models of Authenticated User",
    description := some "Creating a custom AdonisJS mixin to add an authedQuery method, simplifying queries based on the currently authenticated user",
    publishDate := some "August 2 2024",
    updatedDate := some "August 4 2024",
    tags := ["adonisjs", "backend", "typescript"] }

/-- From `src/pages/index.astro`: `const MAX_POSTS = 10;`. -/
def MAX_POSTS : Nat := 10

/-- JavaScript `Array.prototype.slice(start, end)` restricted to
non-negative in-range arguments, as used on line 9 of
`src/pages/index.astro` (`.slice(0, MAX_POSTS)`): elements from index
`start` up to but excluding index `stop`. -/
def jsSlice (l : List ContentItem) (start stop : Nat) : List ContentItem :=
  (l.drop start).take (stop - start)

/-- From `src/pages/index.astro` line 9:
`const allPostsByDate = sortMDByDate(allPosts).slice(0, MAX_POSTS);`. -/
def allPostsByDate (allPosts : List ContentItem) : List ContentItem :=
  jsSlice (sortByDate allPosts) 0 MAX_POSTS

/-- The validated Content Item produced by the loader from `adonisRaw`. -/
def adonisItem : ContentItem :=
  { slug := "001-adonis-authed-query-mixin",
    title := "AdonisJS Mixin for Fetching Models of Authenticated User",
    description := "Creating a custom AdonisJS mixin to add an authedQuery method, simplifying queries based on the currently authenticated user",
    publishDate := 20240802,
    updatedDate := some 20240804,
    tags := ["adonisjs", "backend", "typescript"],
    draft := false,
    body := "" }

/-- Item A of the spec example: publishDate 2024-08-02, no update. -/
def itemA : ContentItem :=
  { slug := "a", title := "", description := "", publishDate := 20240802,
    updatedDate := none, tags := [], draft := false, body := "" }

/-- Item B of the spec example: publishDate 2024-08-04, updated 2024-08-05. -/
def itemB : ContentItem :=
  { slug := "b", title := "", description := "", publishDate := 20240804,
    updatedDate := some 20240805, tags := [], draft := false, body := "" }

/-- A third item for the slice example of the spec. -/
def itemC : ContentItem :=
  { slug := "c", title := "", description := "", publishDate := 20240801,
    updatedDate := none, tags := [], draft := false, body := "" }

/-- A malformed raw item: its required `publishDate` field is missing. -/
def rawBad : RawItem := { slug := "002-bad" }

/-- A second well-formed raw item. -/
def rawGood2 : RawItem :=
  { slug := "003-good", publishDate := some "August 6 2024" }

/-- The validated Content Item produced by the loader from `rawGood2`. -/
def goodItem2 : ContentItem :=
  { slug := "003-good", title := "", description := "", publishDate := 20240806,
    updatedDate := none, tags := [], draft := false, body := "" }

/-- The item list of a successful slice, the empty list for a failed one. -/
def okD (e : Except String (List ContentItem)) : List ContentItem :=
  match e with
  | Except.ok l => l
  | Except.error _ => []

/-- Claim C1: `sortByDate` returns a permutation of its input that is
non-increasing in effective date; items with equal effective dates appear
in ascending slug order; and on the spec example with
A(publishDate 2024-08-02) and B(publishDate 2024-08-04,
updatedDate 2024-08-05) it returns `[B, A]`. -/
theorem C1_sortByDate_spec (l : List ContentItem) :
    (sortByDate l).Perm l ∧
    (sortByDate l).Pairwise (fun a b => effectiveDate b ≤ effectiveDate a) ∧
    (sortByDate l).Pairwise
      (fun a b => effectiveDate a = effectiveDate b → a.slug ≤ b.slug) ∧
    sortByDate [itemA, itemB] = [itemB, itemA] := by
  have hs : List.Pairwise postOrder (sortByDate l) :=
    List.sorted_insertionSort postOrder l
  refine ⟨List.perm_insertionSort _ _, ?_, ?_, by decide⟩
  · refine List.Pairwise.imp ?_ hs
    intro a b h
    have h' : effectiveDate b < effectiveDate a ∨
        (effectiveDate a = effectiveDate b ∧ a.slug ≤ b.slug) := h
    rcases h' with h1 | ⟨h2, _⟩
    · exact le_of_lt h1
    · exact le_of_eq h2.symm
  · refine List.Pairwise.imp ?_ hs
    intro a b h he
    have h' : effectiveDate b < effectiveDate a ∨
        (effectiveDate a = effectiveDate b ∧ a.slug ≤ b.slug) := h
    rcases h' with h1 | ⟨_, h3⟩
    · exact absurd (he ▸ h1) (lt_irrefl _)
    · exact h3

/-- Claim C5: slicing with offset 0 and limit equal to the length of the
input returns the full input unchanged. -/
theorem C5_slice_identity (l : List ContentItem) :
    slice l 0 (l.length : Int) = Except.ok l := by
  unfold slice
  rw [if_neg (by omega)]
  simp

/-- Claim C8: every index operation is deterministic as a two-run
statement: two calls on the same input produce identical output (the
operations are pure functions of their input, which is left unmodified
by construction of the functional model). -/
theorem C8_ops_pure (l1 l2 : List ContentItem) (tag : String)
    (offset limit : Int) (h : l1 = l2) :
    sortByDate l1 = sortByDate l2 ∧
    excludeDrafts l1 = excludeDrafts l2 ∧
    slice l1 offset limit = slice l2 offset limit ∧
    byTag l1 tag = byTag l2 tag := by
  subst h
  exact ⟨rfl, rfl, rfl, rfl⟩

/-- Claim C8 witness: the two-run statement at a concrete input. -/
theorem C8_ops_pure_witness :
    [itemA, itemB] = [itemA, itemB] ∧
    (sortByDate [itemA, itemB] = sortByDate [itemA, itemB] ∧
     excludeDrafts [itemA, itemB] = excludeDrafts [itemA, itemB] ∧
     slice [itemA, itemB] 0 1 = slice [itemA, itemB] 0 1 ∧
     byTag [itemA, itemB] "backend" = byTag [itemA, itemB] "backend") :=
  ⟨rfl, C8_ops_pure [itemA, itemB] [itemA, itemB] "backend" 0 1 rfl⟩

/-- Claim C10: the sole shipped content item has a parseable publishDate
(August 2 2024) and a parseable updatedDate (August 4 2024) strictly
later than its publishDate, so its effective date is its updatedDate;
the shipped store satisfies the invariant that publishDate is present
and parseable. -/
theorem C10_shipped_item :
    parseDate "August 2 2024" = some 20240802 ∧
    parseDate "August 4 2024" = some 20240804 ∧
    loadItem adonisRaw = Except.ok adonisItem ∧
    adonisItem.publishDate = 20240802 ∧
    adonisItem.updatedDate = some 20240804 ∧
    adonisItem.publishDate < 20240804 ∧
    effectiveDate adonisItem = 20240804 :=
  ⟨rfl, rfl, rfl, rfl, rfl, by decide, rfl⟩

/-- Claim C2: `excludeDrafts` keeps exactly the items whose draft flag is
false, in their original relative order, and no draft item appears in the
result of any composition of the index queries over a draft-filtered
index. -/
theorem C2_excludeDrafts_spec (l : List ContentItem) (tag : String)
    (offset limit : Int) :
    (excludeDrafts l).all (fun x => !x.draft) = true ∧
    (excludeDrafts l).Sublist l ∧
    excludeDrafts l = l.filter (fun x => x.draft == false) ∧
    (sortByDate (excludeDrafts l)).all (fun x => !x.draft) = true ∧
    (byTag (excludeDrafts l) tag).all (fun x => !x.draft) = true ∧
    (okD (slice (sortByDate (excludeDrafts l)) offset limit)).all
      (fun x => !x.draft) = true := by
  have hmem : ∀ x ∈ excludeDrafts l, (!x.draft) = true := by
    intro x hx
    exact (List.mem_filter.mp hx).2
  refine ⟨List.all_eq_true.mpr hmem, List.filter_sublist l, ?_, ?_, ?_, ?_⟩
  · refine List.filter_congr ?_
    intro x _
    cases x.draft <;> rfl
  · refine List.all_eq_true.mpr ?_
    intro x hx
    exact hmem x ((List.mem_insertionSort _).mp hx)
  · refine List.all_eq_true.mpr ?_
    intro x hx
    exact hmem x (List.mem_filter.mp hx).1
  · refine List.all_eq_true.mpr ?_
    intro x hx
    unfold slice at hx
    by_cases h : offset < 0 ∨ limit < 0
    · rw [if_pos h] at hx
      simp [okD] at hx
    · rw [if_neg h] at hx
      simp only [okD] at hx
      exact hmem x ((List.mem_insertionSort _).mp
        (List.mem_of_mem_drop (List.mem_of_mem_take hx)))

/-- Claim C3: for non-negative offset and limit, `slice` succeeds with at
most `limit` consecutive items of the input starting at position
`offset`, returns the empty sequence when the offset is at or past the
end, and on the spec example `slice [A, B, C] 1 1 = [B]` (the second
argument is a count, not an end index). -/
theorem C3_slice_spec (items : List ContentItem) (offset limit : Int)
    (ho : 0 ≤ offset) (hl : 0 ≤ limit) :
    (∃ r, slice items offset limit = Except.ok r ∧
      r.length ≤ limit.toNat ∧
      (∀ i : Nat, r[i]? =
        if i < limit.toNat then items[offset.toNat + i]? else none) ∧
      (items.length ≤ offset.toNat → r = [])) ∧
    slice [itemA, itemB, itemC] 1 1 = Except.ok [itemB] := by
  refine ⟨⟨(items.drop offset.toNat).take limit.toNat, ?_, ?_, ?_, ?_⟩, rfl⟩
  · unfold slice
    rw [if_neg (by omega)]
  · rw [List.length_take]
    exact min_le_left _ _
  · intro i
    by_cases hi : i < limit.toNat <;>
      simp [List.getElem?_take, hi, List.getElem?_drop]
  · intro h
    rw [List.drop_eq_nil_of_le h]
    simp

/-- Claim C3 witness: the bounds hold and the conclusion evaluates at a
concrete input. -/
theorem C3_slice_spec_witness :
    (0 : Int) ≤ 1 ∧
    ((∃ r, slice [itemA, itemB, itemC] 1 1 = Except.ok r ∧
      r.length ≤ (1 : Int).toNat ∧
      (∀ i : Nat, r[i]? =
        if i < (1 : Int).toNat then [itemA, itemB, itemC][(1 : Int).toNat + i]?
        else none) ∧
      ([itemA, itemB, itemC].length ≤ (1 : Int).toNat → r = [])) ∧
    slice [itemA, itemB, itemC] 1 1 = Except.ok [itemB]) :=
  ⟨by decide, C3_slice_spec [itemA, itemB, itemC] 1 1 (by decide) (by decide)⟩

/-- Claim C4: `slice` fails, returning the `RangeError` result of the
same call, exactly when `offset < 0` or `limit < 0`, and succeeds for
all non-negative offset and limit. -/
theorem C4_slice_error_iff (items : List ContentItem) (offset limit : Int) :
    (slice items offset limit = Except.error "RangeError" ↔
      offset < 0 ∨ limit < 0) ∧
    ((slice items offset limit).isOk = true ↔ 0 ≤ offset ∧ 0 ≤ limit) := by
  by_cases h : offset < 0 ∨ limit < 0
  · unfold slice
    rw [if_pos h]
    constructor
    · exact ⟨fun _ => h, fun _ => rfl⟩
    · constructor
      · intro hk
        exact absurd hk (by simp [Except.isOk, Except.toBool])
      · intro hk
        omega
  · unfold slice
    rw [if_neg h]
    constructor
    · constructor
      · intro hk
        exact absurd hk (by simp)
      · intro hk
        exact absurd hk h
    · constructor
      · intro _
        omega
      · intro _
        simp [Except.isOk, Except.toBool]

/-- Claim C6: `byTag` returns exactly the items whose tag set contains
the given tag, as a stable filter of the input: a sublist (order
preserved, nothing added) whose members are characterised by membership
and tag containment. -/
theorem C6_byTag_spec (l : List ContentItem) (tag : String) :
    (byTag l tag).Sublist l ∧
    (∀ x, x ∈ byTag l tag ↔ x ∈ l ∧ x.tags.contains tag = true) :=
  ⟨List.filter_sublist l, fun _ => List.mem_filter⟩

/-- Claim C7: `loadAll` is fail-soft: every raw item yields either an
index entry or a diagnostic, and a store of one malformed item between
two valid ones loads exactly the two valid items with exactly one
diagnostic, in order. -/
theorem C7_loadAll_failSoft (store : List RawItem) (r1 rbad r2 : RawItem)
    (i1 i2 : ContentItem) (e : String)
    (h1 : loadItem r1 = Except.ok i1)
    (hbad : loadItem rbad = Except.error e)
    (h2 : loadItem r2 = Except.ok i2) :
    ((loadAll store).1.length + (loadAll store).2.length = store.length) ∧
    loadAll [r1, rbad, r2] = ([i1, i2], [e]) := by
  constructor
  · induction store with
    | nil => rfl
    | cons r rest ih =>
      cases hr : loadItem r <;> simp [loadAll, hr] <;> omega
  · simp [loadAll, h1, hbad, h2]

/-- Claim C7 witness: loading the shipped item, a malformed item and a
second valid item yields the two valid items and one diagnostic. -/
theorem C7_loadAll_failSoft_witness :
    loadItem rawBad =
      Except.error "LoadError: missing publishDate in 002-bad" ∧
    loadAll [adonisRaw, rawBad, rawGood2] =
      ([adonisItem, goodItem2],
       ["LoadError: missing publishDate in 002-bad"]) :=
  ⟨rfl,
    (C7_loadAll_failSoft [] adonisRaw rawBad rawGood2 adonisItem goodItem2
      "LoadError: missing publishDate in 002-bad" rfl rfl rfl).2⟩

/-- Claim C9: the homepage list holds at most `MAX_POSTS = 10` entries,
and those entries are exactly the first `min 10 n` elements of the
date-sorted sequence, because sorting is applied before slicing. -/
theorem C9_homepage_spec (posts : List ContentItem) :
    (allPostsByDate posts).length ≤ MAX_POSTS ∧
    allPostsByDate posts = (sortByDate posts).take (min MAX_POSTS posts.length) ∧
    (allPostsByDate posts).length = min MAX_POSTS posts.length := by
  have hlen : (sortByDate posts).length = posts.length :=
    List.length_insertionSort _ _
  refine ⟨?_, ?_, ?_⟩
  · rw [allPostsByDate, jsSlice, List.length_take]
    exact le_trans (min_le_left _ _) (by omega)
  · rw [allPostsByDate, jsSlice, List.drop_zero, List.take_eq_take, hlen]
    omega
  · rw [allPostsByDate, jsSlice, List.length_take, List.length_drop, hlen]
    omega

end Blog
